import Mathlib

/-!
Shallow embedding of `src/js/tezos/fa2-naplps.mligo`, a minimal FA2 (TZIP-12)
NFT contract written in CameLIGO, together with proofs of the specified
properties of its four entrypoints (Transfer, Balance_of, Update_operators,
Mint).

Modelling choices:
* `address` is modelled as `Nat`, `nat` as `Nat`, `bytes` as `List Nat`.
* A LIGO `big_map` is modelled as an association list `Map K V` with
  `find_opt`, `update` (insert-or-replace), `remove` and `mem` mirroring
  `Big_map.find_opt`, `Big_map.update _ (Some v)`, `Big_map.remove` and
  `Big_map.mem`.  A real `big_map` has unique keys; where a proof needs
  this, it takes the key list being duplicate-free (`Map.NodupKeys`) as a
  hypothesis.
* `failwith` is modelled with the `Except String` monad; `Tezos.get_sender ()`
  becomes an explicit `sender` argument threaded through the handlers.
* `List.fold_left` over possibly-failing bodies becomes `List.foldlM`.
-/

/-- Tezos address, modelled abstractly as a natural number. -/
abbrev Addr := Nat

/-- `type token_id = nat`. -/
abbrev token_id := Nat

/-- LIGO `bytes`, modelled as a list of byte values. -/
abbrev Bytes := List Nat

/-- An association-list model of a LIGO (big_)map. -/
abbrev Map (K V : Type) := List (K × V)

namespace Map

variable {K V : Type} [DecidableEq K]

/-- `Big_map.find_opt`: the value bound to `k`, if any (first match). -/
def find_opt (k : K) : Map K V → Option V
  | [] => none
  | (k', v) :: rest => if k' = k then some v else find_opt k rest

/-- Remove every binding of key `k` (the model of `Big_map.remove`). -/
def eraseK (k : K) : Map K V → Map K V
  | [] => []
  | (k', v) :: rest => if k' = k then eraseK k rest else (k', v) :: eraseK k rest

/-- `Big_map.update k (Some v)`: bind `k` to `v`, replacing any old binding. -/
def update (k : K) (v : V) (m : Map K V) : Map K V :=
  (k, v) :: eraseK k m

/-- `Big_map.mem`: is some value bound to `k`? -/
def mem (k : K) (m : Map K V) : Prop :=
  (find_opt k m).isSome = true

instance (k : K) (m : Map K V) : Decidable (mem k m) := by
  unfold mem; infer_instance

/-- The keys of the map, with multiplicity. -/
def keys (m : Map K V) : List K := m.map Prod.fst

/-- Well-formedness of a LIGO big_map image: keys are pairwise distinct. -/
def NodupKeys (m : Map K V) : Prop := (keys m).Nodup

instance (m : Map K V) : Decidable (NodupKeys m) := by
  unfold NodupKeys; infer_instance

@[simp] theorem find_opt_nil (k : K) : find_opt k ([] : Map K V) = none := rfl

@[simp] theorem find_opt_cons (k k' : K) (v : V) (m : Map K V) :
    find_opt k ((k', v) :: m) = if k' = k then some v else find_opt k m := rfl

@[simp] theorem eraseK_nil (k : K) : eraseK k ([] : Map K V) = [] := rfl

theorem eraseK_cons (k k' : K) (v : V) (m : Map K V) :
    eraseK k ((k', v) :: m)
      = if k' = k then eraseK k m else (k', v) :: eraseK k m := rfl

theorem eraseK_sublist (k : K) (m : Map K V) : (eraseK k m).Sublist m := by
  induction m with
  | nil => exact List.Sublist.refl _
  | cons e rest ih =>
    obtain ⟨k', v⟩ := e
    rw [eraseK_cons]
    by_cases h : k' = k
    · rw [if_pos h]; exact ih.cons _
    · rw [if_neg h]; exact ih.cons₂ _

theorem nodupKeys_eraseK (k : K) (m : Map K V) (h : NodupKeys m) :
    NodupKeys (eraseK k m) :=
  List.Nodup.sublist (List.Sublist.map Prod.fst (eraseK_sublist k m)) h

theorem find_opt_eraseK_self (k : K) (m : Map K V) :
    find_opt k (eraseK k m) = none := by
  induction m with
  | nil => rfl
  | cons e rest ih =>
    obtain ⟨k', v⟩ := e
    rw [eraseK_cons]
    by_cases h : k' = k
    · simpa [h] using ih
    · simpa [h] using ih

theorem find_opt_eraseK_ne (k k' : K) (m : Map K V) (hne : k' ≠ k) :
    find_opt k' (eraseK k m) = find_opt k' m := by
  induction m with
  | nil => rfl
  | cons e rest ih =>
    obtain ⟨k₀, v⟩ := e
    rw [eraseK_cons]
    by_cases h : k₀ = k
    · subst h
      have hne2 : ¬ (k₀ = k') := fun hc => hne (hc ▸ rfl)
      rw [if_pos rfl, find_opt_cons, if_neg hne2, ih]
    · rw [if_neg h, find_opt_cons, find_opt_cons, ih]

theorem eraseK_of_not_mem (k : K) (m : Map K V) (h : ∀ e ∈ m, e.1 ≠ k) :
    eraseK k m = m := by
  induction m with
  | nil => rfl
  | cons e rest ih =>
    obtain ⟨k', v⟩ := e
    have hk : k' ≠ k := h (k', v) (List.mem_cons_self _ _)
    rw [eraseK_cons, if_neg hk, ih (fun e he => h e (List.mem_cons_of_mem _ he))]

theorem eraseK_eraseK (k : K) (m : Map K V) :
    eraseK k (eraseK k m) = eraseK k m := by
  induction m with
  | nil => rfl
  | cons e rest ih =>
    obtain ⟨k', v⟩ := e
    rw [eraseK_cons]
    by_cases h : k' = k
    · simpa [h] using ih
    · rw [if_neg h, eraseK_cons, if_neg h, ih]

theorem eraseK_update_self (k : K) (v : V) (m : Map K V) :
    eraseK k (update k v m) = eraseK k m := by
  rw [update, eraseK_cons, if_pos rfl, eraseK_eraseK]

@[simp] theorem find_opt_update_self (k : K) (v : V) (m : Map K V) :
    find_opt k (update k v m) = some v := by
  rw [update, find_opt_cons, if_pos rfl]

theorem find_opt_update_ne (k k' : K) (v : V) (m : Map K V) (hne : k' ≠ k) :
    find_opt k' (update k v m) = find_opt k' m := by
  have : ¬ (k = k') := fun hc => hne hc.symm
  rw [update, find_opt_cons, if_neg this, find_opt_eraseK_ne _ _ _ hne]

theorem not_mem_keys_eraseK (k : K) (m : Map K V) : k ∉ keys (eraseK k m) := by
  induction m with
  | nil => simp [keys]
  | cons e rest ih =>
    obtain ⟨k', v⟩ := e
    rw [eraseK_cons]
    by_cases h : k' = k
    · simpa [h] using ih
    · rw [if_neg h]
      simp only [keys, List.map_cons, List.mem_cons]
      rintro (h1 | hmem)
      · exact h h1.symm
      · exact ih hmem

theorem nodupKeys_update (k : K) (v : V) (m : Map K V) (h : NodupKeys m) :
    NodupKeys (update k v m) := by
  unfold NodupKeys update keys
  simp only [List.map_cons]
  exact List.nodup_cons.mpr ⟨not_mem_keys_eraseK k m, nodupKeys_eraseK k m h⟩

end Map

/-! ### Contract types (`fa2-naplps.mligo`, lines 26–96) -/

/-- `type ledger = ((address * token_id), nat) big_map`. -/
abbrev ledger := Map (Addr × token_id) Nat

/-- `type operators = ((address * (address * token_id)), unit) big_map`. -/
abbrev operators := Map (Addr × (Addr × token_id)) Unit

/-- `type token_info = (string, bytes) map`. -/
abbrev token_info := Map String Bytes

/-- `type token_metadata_value = { token_id; token_info }`. -/
structure token_metadata_value where
  token_id   : token_id
  token_info : token_info
deriving DecidableEq, Repr

/-- `type token_metadata = (token_id, token_metadata_value) big_map`. -/
abbrev token_metadata := Map token_id token_metadata_value

/-- The contract storage record. -/
structure storage where
  ledger         : ledger
  operators      : operators
  token_metadata : token_metadata
  next_token_id  : token_id
deriving DecidableEq, Repr

/-- `type transfer_destination = { to_; token_id; amount }`. -/
structure transfer_destination where
  to_      : Addr
  token_id : token_id
  amount   : Nat
deriving DecidableEq, Repr

/-- `type transfer_param = { from_; txs }`. -/
structure transfer_param where
  from_ : Addr
  txs   : List transfer_destination
deriving DecidableEq, Repr

/-- `type balance_of_request = { owner; token_id }`. -/
structure balance_of_request where
  owner    : Addr
  token_id : token_id
deriving DecidableEq, Repr

/-- `type balance_of_response = { request; balance }`. -/
structure balance_of_response where
  request : balance_of_request
  balance : Nat
deriving DecidableEq, Repr

/-- `type balance_of_param = { requests; callback }`; the callback contract is
modelled by its address. -/
structure balance_of_param where
  requests : List balance_of_request
  callback : Addr
deriving DecidableEq, Repr

/-- `type update_operator = { owner; operator; token_id }`. -/
structure update_operator where
  owner    : Addr
  operator : Addr
  token_id : token_id
deriving DecidableEq, Repr

/-- `type update_operator_param = Add_operator | Remove_operator`. -/
inductive update_operator_param where
  | Add_operator    : update_operator → update_operator_param
  | Remove_operator : update_operator → update_operator_param
deriving DecidableEq, Repr

/-- `type mint_param = { to_; metadata }`. -/
structure mint_param where
  to_      : Addr
  metadata : token_info
deriving DecidableEq, Repr

/-- `type parameter`, the four entrypoints. -/
inductive parameter where
  | Transfer         : List transfer_param → parameter
  | Balance_of       : balance_of_param → parameter
  | Update_operators : List update_operator_param → parameter
  | Mint             : mint_param → parameter
deriving DecidableEq, Repr

/-- A Tezos operation; the only one this contract emits is
`Tezos.transaction responses 0mutez param.callback`. -/
inductive Operation where
  | transaction : List balance_of_response → Nat → Addr → Operation
deriving DecidableEq, Repr

/-- The response list carried by an emitted operation. -/
def Operation.resp : Operation → List balance_of_response
  | .transaction r _ _ => r

/-- The mutez amount carried by an emitted operation. -/
def Operation.mutez : Operation → Nat
  | .transaction _ a _ => a

/-- The destination contract of an emitted operation. -/
def Operation.dest : Operation → Addr
  | .transaction _ _ d => d

/-! ### Entrypoints (`fa2-naplps.mligo`, lines 98–199)

`failwith` is modelled by `Except.error`; `Tezos.get_sender ()` by the
explicit `sender` argument. -/

/-- `let nat_or_zero (opt : nat option) : nat` (line 100). -/
def nat_or_zero (opt : Option Nat) : Nat :=
  match opt with
  | none => 0
  | some n => n

/-- `do_transfer` (lines 105–124): authorization check, balance check, debit
(removing a zero balance), credit. -/
def do_transfer (sender : Addr) (s : storage) (from_ : Addr)
    (tx : transfer_destination) : Except String storage :=
  if sender ≠ from_ ∧ ¬ Map.mem (from_, (sender, tx.token_id)) s.operators then
    .error "FA2_NOT_OPERATOR"
  else
    let from_key := (from_, tx.token_id)
    let from_bal := nat_or_zero (Map.find_opt from_key s.ledger)
    if from_bal < tx.amount then .error "FA2_INSUFFICIENT_BALANCE"
    else
      let new_from := ((from_bal : Int) - (tx.amount : Int)).natAbs
      let l1 :=
        if new_from = 0
        then Map.eraseK from_key s.ledger
        else Map.update from_key new_from s.ledger
      let to_key := (tx.to_, tx.token_id)
      let to_bal := nat_or_zero (Map.find_opt to_key l1)
      let l2 := Map.update to_key (to_bal + tx.amount) l1
      .ok { s with ledger := l2 }

/-- `apply_txs` (lines 126–130): fold `do_transfer` over one group's triples. -/
def apply_txs (sender : Addr) (s : storage) (param : transfer_param) :
    Except String storage :=
  param.txs.foldlM (fun acc tx => do_transfer sender acc param.from_ tx) s

/-- `transfer` (lines 132–138): fold `apply_txs` over the groups. -/
def transfer (sender : Addr) (params : List transfer_param) (s : storage) :
    Except String (List Operation × storage) := do
  let s ← params.foldlM (fun acc p => apply_txs sender acc p) s
  return ([], s)

/-- `balance_of` (lines 142–151): map each request to its ledger balance and
emit one callback transaction. -/
def balance_of (param : balance_of_param) (s : storage) :
    Except String (List Operation × storage) :=
  let responses := param.requests.map
    (fun req =>
      { request := req
        balance := nat_or_zero (Map.find_opt (req.owner, req.token_id) s.ledger) })
  let op := Operation.transaction responses 0 param.callback
  .ok ([op], s)

/-- `apply_operator_update` (lines 155–162): owner check, then insert or
remove the presence marker. -/
def apply_operator_update (sender : Addr) (ops : operators)
    (param : update_operator_param) : Except String operators :=
  match param with
  | .Add_operator op =>
    if sender ≠ op.owner then .error "FA2_NOT_OWNER"
    else .ok (Map.update (op.owner, (op.operator, op.token_id)) () ops)
  | .Remove_operator op =>
    if sender ≠ op.owner then .error "FA2_NOT_OWNER"
    else .ok (Map.eraseK (op.owner, (op.operator, op.token_id)) ops)

/-- `update_operators` (lines 164–172): fold the directives over the
operator store. -/
def update_operators (sender : Addr) (params : List update_operator_param)
    (s : storage) : Except String (List Operation × storage) := do
  let ops ← params.foldlM (fun acc p => apply_operator_update sender acc p) s.operators
  return ([], { s with operators := ops })

/-- `mint` (lines 176–189): allocate the next token id, credit one unit to the
destination, record the metadata, advance the counter.  It never fails. -/
def mint (param : mint_param) (s : storage) : List Operation × storage :=
  let token_id := s.next_token_id
  let l := Map.update (param.to_, token_id) 1 s.ledger
  let meta : token_metadata_value :=
    { token_id := token_id, token_info := param.metadata }
  let tm := Map.update token_id meta s.token_metadata
  ( [],
    { s with
      ledger := l
      token_metadata := tm
      next_token_id := token_id + 1 } )

/-- The dispatcher `main` (lines 193–199); renamed because `main` is reserved
for executables in Lean. -/
def fa2_main (sender : Addr) (param : parameter) (s : storage) :
    Except String (List Operation × storage) :=
  match param with
  | .Transfer params         => transfer sender params s
  | .Balance_of param        => balance_of param s
  | .Update_operators params => update_operators sender params s
  | .Mint param              => .ok (mint param s)

/-- Modelled from the spec: the Tezos host (not part of `src/`) executes a
call atomically — on success it commits the returned storage and emits the
returned operations, on any failure it discards every mutation, leaving the
pre-call storage in place and surfacing the error. -/
def run_main (sender : Addr) (param : parameter) (s : storage) :
    storage × List Operation × Option String :=
  match fa2_main sender param s with
  | .ok (ops, s2) => (s2, ops, none)
  | .error e => (s, [], some e)

/-! ### Token supply and basic facts about the handlers -/

/-- Total quantity of token `t` recorded in a ledger. -/
def supply : ledger → token_id → Nat
  | [], _ => 0
  | ((_, t2), q) :: rest, t => (if t2 = t then q else 0) + supply rest t

theorem supply_cons (k : Addr × token_id) (q : Nat) (rest : ledger) (t : token_id) :
    supply ((k, q) :: rest) t = (if k.2 = t then q else 0) + supply rest t := by
  obtain ⟨a, t2⟩ := k
  rfl

theorem supply_update (k : Addr × token_id) (v : Nat) (l : ledger) (t : token_id) :
    supply (Map.update k v l) t
      = (if k.2 = t then v else 0) + supply (Map.eraseK k l) t := by
  rw [Map.update, supply_cons]

theorem supply_eraseK (k : Addr × token_id) (l : ledger) (t : token_id)
    (h : Map.NodupKeys l) :
    supply l t
      = (if k.2 = t then nat_or_zero (Map.find_opt k l) else 0)
        + supply (Map.eraseK k l) t := by
  induction l with
  | nil => simp [supply, nat_or_zero]
  | cons e rest ih =>
    obtain ⟨⟨a, t2⟩, q⟩ := e
    have hpair := List.nodup_cons.mp h
    have hnotin : (a, t2) ∉ Map.keys rest := hpair.1
    have hnodup : Map.NodupKeys rest := hpair.2
    by_cases hk : (a, t2) = k
    · subst hk
      have herase : Map.eraseK (a, t2) rest = rest :=
        Map.eraseK_of_not_mem _ _ (fun e he hc =>
          hnotin (hc ▸ List.mem_map_of_mem Prod.fst he))
      rw [Map.eraseK_cons, if_pos rfl, herase, supply_cons, Map.find_opt_cons,
        if_pos rfl]
      rfl
    · rw [Map.eraseK_cons, if_neg hk, supply_cons, supply_cons, Map.find_opt_cons,
        if_neg hk, ih hnodup]
      by_cases ht : k.2 = t <;> by_cases ht2 : (a, t2).2 = t
      all_goals simp [ht, ht2]
      all_goals omega

/-- The ledger produced by the debit-then-credit body of `do_transfer`. -/
def dtLedger (l : ledger) (from_ : Addr) (tx : transfer_destination) : ledger :=
  let from_key := (from_, tx.token_id)
  let from_bal := nat_or_zero (Map.find_opt from_key l)
  let new_from := ((from_bal : Int) - (tx.amount : Int)).natAbs
  let l1 :=
    if new_from = 0
    then Map.eraseK from_key l
    else Map.update from_key new_from l
  let to_key := (tx.to_, tx.token_id)
  Map.update to_key (nat_or_zero (Map.find_opt to_key l1) + tx.amount) l1

/-- A successful `do_transfer` means: the authorization check passed, the
balance check passed, and the result is `s` with the debited-and-credited
ledger. -/
theorem do_transfer_ok_elim (sender : Addr) (s : storage) (from_ : Addr)
    (tx : transfer_destination) (s2 : storage)
    (h : do_transfer sender s from_ tx = .ok s2) :
    (sender = from_ ∨ Map.mem (from_, (sender, tx.token_id)) s.operators)
    ∧ tx.amount ≤ nat_or_zero (Map.find_opt (from_, tx.token_id) s.ledger)
    ∧ s2 = { s with ledger := dtLedger s.ledger from_ tx } := by
  unfold do_transfer at h
  split at h
  · exact Except.noConfusion h
  · rename_i hauth
    dsimp only at h
    split at h
    · exact Except.noConfusion h
    · rename_i hbal
      refine ⟨?_, Nat.le_of_not_lt hbal, ?_⟩
      · by_cases he : sender = from_
        · exact Or.inl he
        · rcases not_and_or.mp hauth with h1 | h2
          · exact absurd he (by simpa using h1)
          · exact Or.inr (not_not.mp h2)
      · cases h
        rfl

/-- If the authorization check fails, `do_transfer` fails with
`FA2_NOT_OPERATOR` — and that is the only way this error arises. -/
theorem do_transfer_not_operator_iff (sender : Addr) (s : storage) (from_ : Addr)
    (tx : transfer_destination) :
    do_transfer sender s from_ tx = .error "FA2_NOT_OPERATOR"
      ↔ ¬ (sender = from_ ∨ Map.mem (from_, (sender, tx.token_id)) s.operators) := by
  constructor
  · intro h
    rintro (he | hm)
    · unfold do_transfer at h
      rw [if_neg (by simp [he])] at h
      dsimp only at h
      split at h
      · injection h with h2
        exact absurd h2 (by decide)
      · exact Except.noConfusion h
    · unfold do_transfer at h
      rw [if_neg (by simp [hm])] at h
      dsimp only at h
      split at h
      · injection h with h2
        exact absurd h2 (by decide)
      · exact Except.noConfusion h
  · intro hc
    unfold do_transfer
    rw [if_pos ⟨fun he => hc (Or.inl he), fun hm => hc (Or.inr hm)⟩]

/-- If the authorization check passes but the requested amount exceeds the
source balance, `do_transfer` fails with `FA2_INSUFFICIENT_BALANCE`. -/
theorem do_transfer_insufficient (sender : Addr) (s : storage) (from_ : Addr)
    (tx : transfer_destination)
    (hauth : sender = from_ ∨ Map.mem (from_, (sender, tx.token_id)) s.operators)
    (hbal : nat_or_zero (Map.find_opt (from_, tx.token_id) s.ledger) < tx.amount) :
    do_transfer sender s from_ tx = .error "FA2_INSUFFICIENT_BALANCE" := by
  unfold do_transfer
  rw [if_neg (fun hc => hc.2 (hauth.resolve_left hc.1))]
  dsimp only
  rw [if_pos hbal]

theorem nodupKeys_dtLedger (l : ledger) (from_ : Addr) (tx : transfer_destination)
    (h : Map.NodupKeys l) : Map.NodupKeys (dtLedger l from_ tx) := by
  unfold dtLedger
  dsimp only
  apply Map.nodupKeys_update
  split
  · exact Map.nodupKeys_eraseK _ _ h
  · exact Map.nodupKeys_update _ _ _ h

/-- The debit-then-credit body moves `tx.amount` from source to destination
and hence preserves the total supply of every token id. -/
theorem supply_dtLedger (l : ledger) (from_ : Addr) (tx : transfer_destination)
    (t : token_id) (h : Map.NodupKeys l)
    (hbal : tx.amount ≤ nat_or_zero (Map.find_opt (from_, tx.token_id) l)) :
    supply (dtLedger l from_ tx) t = supply l t := by
  unfold dtLedger
  dsimp only
  set fk : Addr × token_id := (from_, tx.token_id) with hfk
  set fb := nat_or_zero (Map.find_opt fk l) with hfb
  have hnf : ((fb : Int) - (tx.amount : Int)).natAbs = fb - tx.amount := by
    omega
  rw [hnf]
  set tk : Addr × token_id := (tx.to_, tx.token_id) with htk
  have hfk2 : fk.2 = tx.token_id := rfl
  have htk2 : tk.2 = tx.token_id := rfl
  by_cases hz : fb - tx.amount = 0
  · rw [if_pos hz]
    set l1 := Map.eraseK fk l with hl1
    have hn1 : Map.NodupKeys l1 := Map.nodupKeys_eraseK _ _ h
    have e1 : supply l t = (if tx.token_id = t then fb else 0) + supply l1 t := by
      rw [supply_eraseK fk l t h, hfk2, ← hfb, hl1]
    have e2 : supply l1 t
        = (if tx.token_id = t then nat_or_zero (Map.find_opt tk l1) else 0)
          + supply (Map.eraseK tk l1) t := by
      rw [supply_eraseK tk l1 t hn1, htk2]
    have e3 : supply (Map.update tk (nat_or_zero (Map.find_opt tk l1) + tx.amount) l1) t
        = (if tx.token_id = t then nat_or_zero (Map.find_opt tk l1) + tx.amount else 0)
          + supply (Map.eraseK tk l1) t := by
      rw [supply_update, htk2]
    have hfbamt : fb = tx.amount := by omega
    rw [e3]
    split_ifs at e1 e2 ⊢ with ht
    · omega
    · omega
  · rw [if_neg hz]
    set l1 := Map.update fk (fb - tx.amount) l with hl1
    have hn1 : Map.NodupKeys l1 := Map.nodupKeys_update _ _ _ h
    have e0 : supply l t
        = (if tx.token_id = t then fb else 0) + supply (Map.eraseK fk l) t := by
      rw [supply_eraseK fk l t h, hfk2, ← hfb]
    have e1 : supply l1 t
        = (if tx.token_id = t then fb - tx.amount else 0)
          + supply (Map.eraseK fk l) t := by
      rw [hl1, supply_update, hfk2]
    have e2 : supply l1 t
        = (if tx.token_id = t then nat_or_zero (Map.find_opt tk l1) else 0)
          + supply (Map.eraseK tk l1) t := by
      rw [supply_eraseK tk l1 t hn1, htk2]
    have e3 : supply (Map.update tk (nat_or_zero (Map.find_opt tk l1) + tx.amount) l1) t
        = (if tx.token_id = t then nat_or_zero (Map.find_opt tk l1) + tx.amount else 0)
          + supply (Map.eraseK tk l1) t := by
      rw [supply_update, htk2]
    rw [e3]
    split_ifs at e0 e1 e2 ⊢ with ht
    · omega
    · omega

/-! ### Generic helpers for monadic folds over `Except` -/

theorem except_bind_ok {α β : Type} (x : Except String α) (f : α → Except String β)
    (b : β) (h : x >>= f = .ok b) : ∃ a, x = .ok a ∧ f a = .ok b := by
  cases x with
  | error e => exact Except.noConfusion h
  | ok a => exact ⟨a, rfl, h⟩

theorem foldlM_inv {α β : Type} (f : β → α → Except String β) (P : β → Prop)
    (hf : ∀ b a b2, P b → f b a = .ok b2 → P b2) (l : List α) :
    ∀ b b2, P b → l.foldlM f b = .ok b2 → P b2 := by
  induction l with
  | nil =>
    intro b b2 hb h
    rw [List.foldlM_nil] at h
    cases h
    exact hb
  | cons a rest ih =>
    intro b b2 hb h
    rw [List.foldlM_cons] at h
    obtain ⟨b1, h1, h2⟩ := except_bind_ok _ _ _ h
    exact ih b1 b2 (hf b a b1 hb h1) h2

/-- A failing step makes the whole remaining fold fail with the same error. -/
theorem foldlM_cons_error {α β : Type} (f : β → α → Except String β)
    (a : α) (l : List α) (b : β) (e : String) (ha : f b a = .error e) :
    (a :: l).foldlM f b = .error e := by
  rw [List.foldlM_cons, ha]
  rfl

/-- A successful prefix followed by a failing step fails the whole fold. -/
theorem foldlM_append_error {α β : Type} (f : β → α → Except String β)
    (l1 l2 : List α) (a : α) (b b1 : β) (e : String)
    (h1 : l1.foldlM f b = .ok b1) (ha : f b1 a = .error e) :
    (l1 ++ a :: l2).foldlM f b = .error e := by
  rw [List.foldlM_append, h1]
  show (a :: l2).foldlM f b1 = .error e
  exact foldlM_cons_error f a l2 b1 e ha

/-- A successful `transfer` emits no operations and its storage is the result
of folding `apply_txs` over the groups. -/
theorem transfer_ok_elim (sender : Addr) (params : List transfer_param)
    (s : storage) (ops : List Operation) (s2 : storage)
    (h : transfer sender params s = .ok (ops, s2)) :
    ops = [] ∧ params.foldlM (fun acc p => apply_txs sender acc p) s = .ok s2 := by
  unfold transfer at h
  obtain ⟨s1, h1, h2⟩ := except_bind_ok _ _ _ h
  injection h2 with h3
  injection h3 with h4 h5
  exact ⟨h4.symm, h5 ▸ h1⟩

/-- A successful `update_operators` emits no operations and only replaces the
`operators` field with the fold of `apply_operator_update`. -/
theorem update_operators_ok_elim (sender : Addr)
    (params : List update_operator_param) (s : storage)
    (ops2 : List Operation) (s2 : storage)
    (h : update_operators sender params s = .ok (ops2, s2)) :
    ops2 = []
    ∧ ∃ newops,
        params.foldlM (fun acc p => apply_operator_update sender acc p) s.operators
          = .ok newops
        ∧ s2 = { s with operators := newops } := by
  unfold update_operators at h
  obtain ⟨o1, h1, h2⟩ := except_bind_ok _ _ _ h
  injection h2 with h3
  injection h3 with h4 h5
  exact ⟨h4.symm, o1, h1, h5.symm⟩

/-- C1: for every storage state and every Transfer call whose transfer groups
never overdraw any source and whose caller is authorized for each triple
(equivalently: the call succeeds), the sum of ledger quantities for each
token-id in the resulting storage equals the sum in the initial storage. -/
theorem transfer_conserves_token_supply (sender : Addr)
    (params : List transfer_param) (s : storage) (ops : List Operation)
    (s2 : storage) (t : token_id)
    (hwf : Map.NodupKeys s.ledger)
    (h : transfer sender params s = .ok (ops, s2)) :
    supply s2.ledger t = supply s.ledger t := by
  obtain ⟨-, hfold⟩ := transfer_ok_elim sender params s ops s2 h
  have hinv : Map.NodupKeys s2.ledger
      ∧ ∀ u, supply s2.ledger u = supply s.ledger u := by
    refine foldlM_inv (fun acc p => apply_txs sender acc p)
      (fun st => Map.NodupKeys st.ledger ∧ ∀ u, supply st.ledger u = supply s.ledger u)
      ?_ params s s2 ⟨hwf, fun u => rfl⟩ hfold
    intro b p b2 hP hok
    unfold apply_txs at hok
    refine foldlM_inv (fun acc tx => do_transfer sender acc p.from_ tx)
      (fun st => Map.NodupKeys st.ledger ∧ ∀ u, supply st.ledger u = supply s.ledger u)
      ?_ p.txs b b2 hP hok
    intro c tx c2 hPc hc
    obtain ⟨hauth, hbal, hceq⟩ := do_transfer_ok_elim sender c p.from_ tx c2 hc
    subst hceq
    exact ⟨nodupKeys_dtLedger _ _ _ hPc.1,
      fun u => (supply_dtLedger c.ledger p.from_ tx u hPc.1 hbal).trans (hPc.2 u)⟩
  exact hinv.2 t

theorem transfer_conserves_token_supply_witness :
    Map.NodupKeys ([((0, 0), 2), ((1, 1), 5)] : ledger)
    ∧ transfer 0
        [{ from_ := 0,
           txs := [{ to_ := 1, token_id := 0, amount := 1 },
                   { to_ := 1, token_id := 0, amount := 1 }] }]
        { ledger := [((0, 0), 2), ((1, 1), 5)], operators := [],
          token_metadata := [], next_token_id := 0 }
        = .ok ([],
          { ledger := [((1, 0), 2), ((1, 1), 5)], operators := [],
            token_metadata := [], next_token_id := 0 })
    ∧ supply ([((1, 0), 2), ((1, 1), 5)] : ledger) 0
        = supply ([((0, 0), 2), ((1, 1), 5)] : ledger) 0 :=
  ⟨by decide, by rfl,
    transfer_conserves_token_supply 0
      [{ from_ := 0,
         txs := [{ to_ := 1, token_id := 0, amount := 1 },
                 { to_ := 1, token_id := 0, amount := 1 }] }]
      { ledger := [((0, 0), 2), ((1, 1), 5)], operators := [],
        token_metadata := [], next_token_id := 0 }
      []
      { ledger := [((1, 0), 2), ((1, 1), 5)], operators := [],
        token_metadata := [], next_token_id := 0 }
      0 (by decide) (by rfl)⟩

/-- An error in the group fold is the result of the whole `transfer`. -/
theorem transfer_error_of_foldlM (sender : Addr) (params : List transfer_param)
    (s : storage) (e : String)
    (h : params.foldlM (fun acc p => apply_txs sender acc p) s = .error e) :
    transfer sender params s = .error e := by
  unfold transfer
  rw [h]
  rfl

/-- C2: if, with all earlier groups and earlier triples of the current group
succeeding, a triple's requested amount exceeds the source's balance at that
point (absent entries read as 0) while its authorization check passes, then
the whole Transfer call fails with `FA2_INSUFFICIENT_BALANCE` and the
committed storage is exactly the pre-call storage. -/
theorem transfer_insufficient_balance_aborts
    (sender : Addr) (s : storage)
    (pre : List transfer_param) (from_ : Addr)
    (txs1 : List transfer_destination) (tx : transfer_destination)
    (txs2 : List transfer_destination) (rest : List transfer_param)
    (s0 s1 : storage)
    (h0 : pre.foldlM (fun acc p => apply_txs sender acc p) s = .ok s0)
    (h1 : txs1.foldlM (fun acc t2 => do_transfer sender acc from_ t2) s0 = .ok s1)
    (hauth : sender = from_ ∨ Map.mem (from_, (sender, tx.token_id)) s1.operators)
    (hbal : nat_or_zero (Map.find_opt (from_, tx.token_id) s1.ledger) < tx.amount) :
    transfer sender (pre ++ { from_ := from_, txs := txs1 ++ tx :: txs2 } :: rest) s
      = .error "FA2_INSUFFICIENT_BALANCE"
    ∧ run_main sender
        (parameter.Transfer (pre ++ { from_ := from_, txs := txs1 ++ tx :: txs2 } :: rest)) s
      = (s, [], some "FA2_INSUFFICIENT_BALANCE") := by
  have herr : do_transfer sender s1 from_ tx = .error "FA2_INSUFFICIENT_BALANCE" :=
    do_transfer_insufficient sender s1 from_ tx hauth hbal
  have hgroup : apply_txs sender s0 { from_ := from_, txs := txs1 ++ tx :: txs2 }
      = .error "FA2_INSUFFICIENT_BALANCE" := by
    unfold apply_txs
    exact foldlM_append_error _ txs1 txs2 tx s0 s1 _ h1 herr
  have hfold :
      (pre ++ { from_ := from_, txs := txs1 ++ tx :: txs2 } :: rest).foldlM
        (fun acc p => apply_txs sender acc p) s = .error "FA2_INSUFFICIENT_BALANCE" :=
    foldlM_append_error _ pre rest _ s s0 _ h0 hgroup
  have ht := transfer_error_of_foldlM sender _ s _ hfold
  refine ⟨ht, ?_⟩
  unfold run_main fa2_main
  dsimp only
  rw [ht]

theorem transfer_insufficient_balance_aborts_witness :
    transfer 2
      ([{ from_ := 2, txs := [{ to_ := 3, token_id := 0, amount := 1 }] }]
        ++ { from_ := 2, txs := [] ++ { to_ := 4, token_id := 0, amount := 1 } :: [] } :: [])
      { ledger := [((2, 0), 1)], operators := [], token_metadata := [], next_token_id := 1 }
      = .error "FA2_INSUFFICIENT_BALANCE"
    ∧ run_main 2
        (parameter.Transfer
          ([{ from_ := 2, txs := [{ to_ := 3, token_id := 0, amount := 1 }] }]
            ++ { from_ := 2, txs := [] ++ { to_ := 4, token_id := 0, amount := 1 } :: [] } :: []))
        { ledger := [((2, 0), 1)], operators := [], token_metadata := [], next_token_id := 1 }
      = ({ ledger := [((2, 0), 1)], operators := [], token_metadata := [],
           next_token_id := 1 },
         [], some "FA2_INSUFFICIENT_BALANCE") :=
  transfer_insufficient_balance_aborts 2
    { ledger := [((2, 0), 1)], operators := [], token_metadata := [], next_token_id := 1 }
    [{ from_ := 2, txs := [{ to_ := 3, token_id := 0, amount := 1 }] }]
    2 [] { to_ := 4, token_id := 0, amount := 1 } [] []
    { ledger := [((3, 0), 1)], operators := [], token_metadata := [], next_token_id := 1 }
    { ledger := [((3, 0), 1)], operators := [], token_metadata := [], next_token_id := 1 }
    (by rfl) (by rfl) (Or.inl rfl) (by decide)

/-- C3: for a triple reached after all earlier groups and triples succeeded,
if the caller equals the group's source owner or an operator entry keyed by
(owner, (caller, token-id)) is present, the authorization check passes (the
triple cannot fail with `FA2_NOT_OPERATOR`); otherwise the whole Transfer
call fails with `FA2_NOT_OPERATOR` and the committed storage is exactly the
pre-call storage. -/
theorem transfer_not_operator_aborts
    (sender : Addr) (s : storage)
    (pre : List transfer_param) (from_ : Addr)
    (txs1 : List transfer_destination) (tx : transfer_destination)
    (txs2 : List transfer_destination) (rest : List transfer_param)
    (s0 s1 : storage)
    (h0 : pre.foldlM (fun acc p => apply_txs sender acc p) s = .ok s0)
    (h1 : txs1.foldlM (fun acc t2 => do_transfer sender acc from_ t2) s0 = .ok s1) :
    ((sender = from_ ∨ Map.mem (from_, (sender, tx.token_id)) s1.operators) →
        do_transfer sender s1 from_ tx ≠ .error "FA2_NOT_OPERATOR")
    ∧ (¬ (sender = from_ ∨ Map.mem (from_, (sender, tx.token_id)) s1.operators) →
        transfer sender (pre ++ { from_ := from_, txs := txs1 ++ tx :: txs2 } :: rest) s
          = .error "FA2_NOT_OPERATOR"
        ∧ run_main sender
            (parameter.Transfer
              (pre ++ { from_ := from_, txs := txs1 ++ tx :: txs2 } :: rest)) s
          = (s, [], some "FA2_NOT_OPERATOR")) := by
  constructor
  · intro hauth herr
    exact (do_transfer_not_operator_iff sender s1 from_ tx).mp herr hauth
  · intro hneg
    have herr : do_transfer sender s1 from_ tx = .error "FA2_NOT_OPERATOR" :=
      (do_transfer_not_operator_iff sender s1 from_ tx).mpr hneg
    have hgroup : apply_txs sender s0 { from_ := from_, txs := txs1 ++ tx :: txs2 }
        = .error "FA2_NOT_OPERATOR" := by
      unfold apply_txs
      exact foldlM_append_error _ txs1 txs2 tx s0 s1 _ h1 herr
    have hfold :
        (pre ++ { from_ := from_, txs := txs1 ++ tx :: txs2 } :: rest).foldlM
          (fun acc p => apply_txs sender acc p) s = .error "FA2_NOT_OPERATOR" :=
      foldlM_append_error _ pre rest _ s s0 _ h0 hgroup
    have ht := transfer_error_of_foldlM sender _ s _ hfold
    refine ⟨ht, ?_⟩
    unfold run_main fa2_main
    dsimp only
    rw [ht]

theorem transfer_not_operator_aborts_witness :
    transfer 9
      ([] ++ { from_ := 2, txs := [] ++ { to_ := 3, token_id := 0, amount := 1 } :: [] } :: [])
      { ledger := [((2, 0), 1)], operators := [], token_metadata := [], next_token_id := 1 }
      = .error "FA2_NOT_OPERATOR"
    ∧ run_main 9
        (parameter.Transfer
          ([] ++ { from_ := 2, txs := [] ++ { to_ := 3, token_id := 0, amount := 1 } :: [] } :: []))
        { ledger := [((2, 0), 1)], operators := [], token_metadata := [], next_token_id := 1 }
      = ({ ledger := [((2, 0), 1)], operators := [], token_metadata := [],
           next_token_id := 1 },
         [], some "FA2_NOT_OPERATOR") :=
  (transfer_not_operator_aborts 9
    { ledger := [((2, 0), 1)], operators := [], token_metadata := [], next_token_id := 1 }
    [] 2 [] { to_ := 3, token_id := 0, amount := 1 } [] []
    { ledger := [((2, 0), 1)], operators := [], token_metadata := [], next_token_id := 1 }
    { ledger := [((2, 0), 1)], operators := [], token_metadata := [], next_token_id := 1 }
    (by rfl) (by rfl)).2 (by decide)

theorem mint_ledger_eq (p : mint_param) (s : storage) :
    (mint p s).2.ledger = Map.update (p.to_, s.next_token_id) 1 s.ledger := rfl

theorem mint_metadata_eq (p : mint_param) (s : storage) :
    (mint p s).2.token_metadata
      = Map.update s.next_token_id
          { token_id := s.next_token_id, token_info := p.metadata }
          s.token_metadata := rfl

theorem mint_counter_eq (p : mint_param) (s : storage) :
    (mint p s).2.next_token_id = s.next_token_id + 1 := rfl

/-- C5: for a storage with counter `n`, Mint always succeeds, maps
`(destination, n)` to quantity 1 in the ledger, maps `n` to
`{token_id = n, token_info = payload}` in the metadata store, and sets the
counter to `n + 1`; minting a second time yields the distinct id `n + 1`,
keeps the first ledger and metadata entries, and leaves the counter at
`n + 2`. -/
theorem mint_allocates_sequentially (sender : Addr) (p1 p2 : mint_param)
    (s : storage) :
    fa2_main sender (parameter.Mint p1) s = .ok (mint p1 s)
    ∧ Map.find_opt (p1.to_, s.next_token_id) (mint p1 s).2.ledger = some 1
    ∧ Map.find_opt s.next_token_id (mint p1 s).2.token_metadata
        = some { token_id := s.next_token_id, token_info := p1.metadata }
    ∧ (mint p1 s).2.next_token_id = s.next_token_id + 1
    ∧ Map.find_opt (p2.to_, s.next_token_id + 1) (mint p2 (mint p1 s).2).2.ledger
        = some 1
    ∧ Map.find_opt (p1.to_, s.next_token_id) (mint p2 (mint p1 s).2).2.ledger
        = some 1
    ∧ Map.find_opt (s.next_token_id + 1) (mint p2 (mint p1 s).2).2.token_metadata
        = some { token_id := s.next_token_id + 1, token_info := p2.metadata }
    ∧ Map.find_opt s.next_token_id (mint p2 (mint p1 s).2).2.token_metadata
        = some { token_id := s.next_token_id, token_info := p1.metadata }
    ∧ (mint p2 (mint p1 s).2).2.next_token_id = s.next_token_id + 2 := by
  refine ⟨rfl, ?_, ?_, rfl, ?_, ?_, ?_, ?_, rfl⟩
  · rw [mint_ledger_eq]
    exact Map.find_opt_update_self _ _ _
  · rw [mint_metadata_eq]
    exact Map.find_opt_update_self _ _ _
  · rw [mint_ledger_eq, mint_counter_eq]
    exact Map.find_opt_update_self _ _ _
  · rw [mint_ledger_eq, mint_counter_eq, mint_ledger_eq]
    rw [Map.find_opt_update_ne (p2.to_, s.next_token_id + 1)
      (p1.to_, s.next_token_id) _ _
      (fun hc => by
        have h2 : s.next_token_id = s.next_token_id + 1 := congrArg Prod.snd hc
        exact absurd h2 (Nat.ne_of_lt (Nat.lt_succ_self _)))]
    exact Map.find_opt_update_self _ _ _
  · rw [mint_metadata_eq, mint_counter_eq]
    exact Map.find_opt_update_self _ _ _
  · rw [mint_metadata_eq, mint_counter_eq, mint_metadata_eq]
    rw [Map.find_opt_update_ne (s.next_token_id + 1) s.next_token_id _ _
      (Nat.ne_of_lt (Nat.lt_succ_self _))]
    exact Map.find_opt_update_self _ _ _

/-- The owner named by an operator-update directive, for either kind. -/
def directive_owner : update_operator_param → Addr
  | .Add_operator op => op.owner
  | .Remove_operator op => op.owner

/-- A directive whose named owner is not the caller fails with
`FA2_NOT_OWNER`, whichever kind it is. -/
theorem apply_operator_update_not_owner (sender : Addr) (ops : operators)
    (p : update_operator_param) (h : sender ≠ directive_owner p) :
    apply_operator_update sender ops p = .error "FA2_NOT_OWNER" := by
  cases p with
  | Add_operator op =>
    simp only [directive_owner] at h
    unfold apply_operator_update
    dsimp only
    rw [if_pos h]
  | Remove_operator op =>
    simp only [directive_owner] at h
    unfold apply_operator_update
    dsimp only
    rw [if_pos h]

/-- C6: if any directive of an Update_operators call names an owner other
than the caller (all earlier directives having succeeded), the whole call
fails with `FA2_NOT_OWNER` and the committed storage is exactly the pre-call
storage; a directive is only ever applied when the caller equals its named
owner. -/
theorem update_operators_not_owner_aborts
    (sender : Addr) (s : storage)
    (pre : List update_operator_param) (d : update_operator_param)
    (post : List update_operator_param) (ops1 : operators)
    (h0 : pre.foldlM (fun acc p => apply_operator_update sender acc p) s.operators
      = .ok ops1)
    (hown : sender ≠ directive_owner d) :
    update_operators sender (pre ++ d :: post) s = .error "FA2_NOT_OWNER"
    ∧ run_main sender (parameter.Update_operators (pre ++ d :: post)) s
        = (s, [], some "FA2_NOT_OWNER") := by
  have herr := apply_operator_update_not_owner sender ops1 d hown
  have hfold := foldlM_append_error _ pre post d s.operators ops1 _ h0 herr
  have ht : update_operators sender (pre ++ d :: post) s = .error "FA2_NOT_OWNER" := by
    unfold update_operators
    rw [hfold]
    rfl
  refine ⟨ht, ?_⟩
  unfold run_main fa2_main
  dsimp only
  rw [ht]

theorem update_operators_not_owner_aborts_witness :
    update_operators 3
      ([.Add_operator { owner := 3, operator := 5, token_id := 0 }]
        ++ .Add_operator { owner := 4, operator := 5, token_id := 0 } :: [])
      { ledger := [], operators := [], token_metadata := [], next_token_id := 0 }
      = .error "FA2_NOT_OWNER"
    ∧ run_main 3
        (parameter.Update_operators
          ([.Add_operator { owner := 3, operator := 5, token_id := 0 }]
            ++ .Add_operator { owner := 4, operator := 5, token_id := 0 } :: []))
        { ledger := [], operators := [], token_metadata := [], next_token_id := 0 }
      = ({ ledger := [], operators := [], token_metadata := [], next_token_id := 0 },
         [], some "FA2_NOT_OWNER") :=
  update_operators_not_owner_aborts 3
    { ledger := [], operators := [], token_metadata := [], next_token_id := 0 }
    [.Add_operator { owner := 3, operator := 5, token_id := 0 }]
    (.Add_operator { owner := 4, operator := 5, token_id := 0 })
    [] [((3, (5, 0)), ())] (by rfl) (by decide)

/-- C7: a Balance_of call leaves the storage unchanged, reports no error,
emits exactly one operation — delivery of the response list, with 0 mutez,
to the caller-supplied callback — and the response list is parallel to the
request list in the same order, pairing the i-th request with the ledger
quantity for (owner, token-id), read as 0 when no entry is present. -/
theorem balance_of_reports_balances (sender : Addr) (param : balance_of_param)
    (s : storage) (i : Nat) :
    (run_main sender (parameter.Balance_of param) s).1 = s
    ∧ (run_main sender (parameter.Balance_of param) s).2.2 = none
    ∧ (run_main sender (parameter.Balance_of param) s).2.1.length = 1
    ∧ ((run_main sender (parameter.Balance_of param) s).2.1.head?.map
        (fun op => (Operation.dest op, Operation.mutez op, (Operation.resp op).length)))
      = some (param.callback, 0, param.requests.length)
    ∧ ((run_main sender (parameter.Balance_of param) s).2.1.head?.map
        (fun op => (Operation.resp op)[i]?))
      = some ((param.requests[i]?).map
          (fun req =>
            { request := req
              balance := nat_or_zero (Map.find_opt (req.owner, req.token_id) s.ledger) })) := by
  refine ⟨rfl, rfl, rfl, ?_, ?_⟩
  · show some (param.callback, 0,
        (param.requests.map (fun req =>
          ({ request := req
             balance := nat_or_zero (Map.find_opt (req.owner, req.token_id) s.ledger) }
            : balance_of_response))).length)
      = some (param.callback, 0, param.requests.length)
    rw [List.length_map]
  · show some ((param.requests.map (fun req =>
        ({ request := req
           balance := nat_or_zero (Map.find_opt (req.owner, req.token_id) s.ledger) }
          : balance_of_response)))[i]?)
      = _
    rw [List.getElem?_map]

/-- C8: transfer groups are applied in the given order and, within a group,
the triples in the given order; each step is evaluated against the storage
produced by all earlier steps of the same call (sequential bind), and a
group over concatenated triple lists behaves as the two groups in
sequence. -/
theorem transfer_applies_in_order (sender : Addr) (s : storage)
    (p : transfer_param) (ps : List transfer_param) (f : Addr)
    (tx : transfer_destination) (txs txs2 : List transfer_destination) :
    (transfer sender (p :: ps) s
      = (apply_txs sender s p) >>= (fun s1 => transfer sender ps s1))
    ∧ (apply_txs sender s { from_ := f, txs := tx :: txs }
      = (do_transfer sender s f tx) >>= (fun s1 =>
          apply_txs sender s1 { from_ := f, txs := txs }))
    ∧ (transfer sender ({ from_ := f, txs := txs ++ txs2 } :: ps) s
      = transfer sender
          ({ from_ := f, txs := txs } :: { from_ := f, txs := txs2 } :: ps) s) := by
  refine ⟨?_, ?_, ?_⟩
  · unfold transfer
    rw [List.foldlM_cons]
    cases happ : apply_txs sender s p
    · rfl
    · rfl
  · unfold apply_txs
    dsimp only
    rw [List.foldlM_cons]
  · unfold transfer
    rw [List.foldlM_cons, List.foldlM_cons]
    unfold apply_txs
    dsimp only
    rw [List.foldlM_append]
    cases h1 : txs.foldlM (fun acc tx => do_transfer sender acc f tx) s
    · rfl
    · rfl

namespace Map

theorem keys_ne_of_find_opt_none {K V : Type} [DecidableEq K] (k : K) (m : Map K V)
    (h : find_opt k m = none) : ∀ e ∈ m, e.1 ≠ k := by
  induction m with
  | nil =>
    intro e he
    cases he
  | cons e0 rest ih =>
    obtain ⟨k0, v⟩ := e0
    rw [find_opt_cons] at h
    by_cases hk : k0 = k
    · rw [if_pos hk] at h
      cases h
    · rw [if_neg hk] at h
      intro e he
      rcases List.mem_cons.mp he with h1 | hmem
      · exact h1 ▸ hk
      · exact ih h e hmem

theorem eraseK_of_find_opt_none {K V : Type} [DecidableEq K] (k : K) (m : Map K V)
    (h : find_opt k m = none) : eraseK k m = m :=
  eraseK_of_not_mem k m (keys_ne_of_find_opt_none k m h)

theorem update_update_self {K V : Type} [DecidableEq K] (k : K) (v : V) (m : Map K V) :
    update k v (update k v m) = update k v m := by
  unfold update
  rw [eraseK_cons, if_pos rfl, eraseK_eraseK]

end Map

/-- C9 as stated is false on the code: in an operator store where the
(owner, operator, token-id) marker is already present, Add then Remove
yields authorization absent, which differs from the pre-add value
(present). -/
theorem operator_add_remove_not_restoring :
    (apply_operator_update 0 [((0, (1, 2)), ())]
        (.Add_operator { owner := 0, operator := 1, token_id := 2 })
      = .ok [((0, (1, 2)), ())])
    ∧ (apply_operator_update 0 [((0, (1, 2)), ())]
        (.Remove_operator { owner := 0, operator := 1, token_id := 2 })
      = .ok [])
    ∧ Map.mem ((0 : Addr), ((1 : Addr), (2 : token_id))) [((0, (1, 2)), ())]
    ∧ ¬ Map.mem ((0 : Addr), ((1 : Addr), (2 : token_id))) ([] : operators) := by
  refine ⟨by rfl, by rfl, by decide, by decide⟩

/-- C9 amended: for directives issued by the owner, Add followed by Remove
for the same (owner, operator, token-id) always yields a store in which that
authorization is absent; when the marker was absent before the Add, this
restores the pre-add store exactly; and Add and Remove are each idempotent. -/
theorem operator_update_algebra (sender o q : Addr) (t : token_id)
    (ops : operators) (h : sender = o) :
    ((apply_operator_update sender ops
        (.Add_operator { owner := o, operator := q, token_id := t }) >>= (fun o1 =>
      apply_operator_update sender o1
        (.Remove_operator { owner := o, operator := q, token_id := t })))
      = .ok (Map.eraseK (o, (q, t)) ops))
    ∧ ¬ Map.mem (o, (q, t)) (Map.eraseK (o, (q, t)) ops)
    ∧ (¬ Map.mem (o, (q, t)) ops → Map.eraseK (o, (q, t)) ops = ops)
    ∧ ((apply_operator_update sender ops
          (.Add_operator { owner := o, operator := q, token_id := t }) >>= (fun o1 =>
        apply_operator_update sender o1
          (.Add_operator { owner := o, operator := q, token_id := t })))
        = apply_operator_update sender ops
            (.Add_operator { owner := o, operator := q, token_id := t }))
    ∧ ((apply_operator_update sender ops
          (.Remove_operator { owner := o, operator := q, token_id := t }) >>= (fun o1 =>
        apply_operator_update sender o1
          (.Remove_operator { owner := o, operator := q, token_id := t })))
        = apply_operator_update sender ops
            (.Remove_operator { owner := o, operator := q, token_id := t })) := by
  subst h
  have hno : ¬ (sender ≠ sender) := fun hc => hc rfl
  have hadd : ∀ os : operators, apply_operator_update sender os
      (.Add_operator { owner := sender, operator := q, token_id := t })
      = .ok (Map.update (sender, (q, t)) () os) := by
    intro os
    unfold apply_operator_update
    dsimp only
    rw [if_neg hno]
  have hrem : ∀ os : operators, apply_operator_update sender os
      (.Remove_operator { owner := sender, operator := q, token_id := t })
      = .ok (Map.eraseK (sender, (q, t)) os) := by
    intro os
    unfold apply_operator_update
    dsimp only
    rw [if_neg hno]
  refine ⟨?_, ?_, ?_, ?_, ?_⟩
  · rw [hadd]
    show apply_operator_update sender (Map.update (sender, (q, t)) () ops)
        (.Remove_operator { owner := sender, operator := q, token_id := t })
      = .ok (Map.eraseK (sender, (q, t)) ops)
    rw [hrem, Map.eraseK_update_self]
  · intro hmem
    unfold Map.mem at hmem
    rw [Map.find_opt_eraseK_self] at hmem
    exact absurd hmem (by decide)
  · intro hmem
    apply Map.eraseK_of_find_opt_none
    cases hfind : Map.find_opt ((sender, (q, t)) : Addr × (Addr × token_id))
        (ops : operators) with
    | none => rfl
    | some v =>
      exact absurd (by unfold Map.mem; rw [hfind]; rfl) hmem
  · rw [hadd]
    show apply_operator_update sender (Map.update (sender, (q, t)) () ops)
        (.Add_operator { owner := sender, operator := q, token_id := t })
      = .ok (Map.update (sender, (q, t)) () ops)
    rw [hadd, Map.update_update_self]
  · rw [hrem]
    show apply_operator_update sender (Map.eraseK (sender, (q, t)) ops)
        (.Remove_operator { owner := sender, operator := q, token_id := t })
      = .ok (Map.eraseK (sender, (q, t)) ops)
    rw [hrem, Map.eraseK_eraseK]

theorem operator_update_algebra_witness :
    ((apply_operator_update 0 [((7, (8, 9)), ())]
        (.Add_operator { owner := 0, operator := 1, token_id := 2 }) >>= (fun o1 =>
      apply_operator_update 0 o1
        (.Remove_operator { owner := 0, operator := 1, token_id := 2 })))
      = .ok [((7, (8, 9)), ())])
    ∧ ¬ Map.mem ((0 : Addr), ((1 : Addr), (2 : token_id))) [((7, (8, 9)), ())] := by
  have H := operator_update_algebra 0 0 1 2 [((7, (8, 9)), ())] rfl
  refine ⟨?_, by decide⟩
  have heq := H.2.2.1 (by decide)
  rw [heq] at H
  exact H.1

/-- C10: a successful Transfer mutates only the `ledger` field (operators,
token_metadata and next_token_id are unchanged); a successful
Update_operators mutates only the `operators` field; a Balance_of call
leaves the whole storage unchanged. -/
theorem entrypoint_frame_conditions (sender : Addr) (tps : List transfer_param)
    (ups : List update_operator_param) (bp : balance_of_param) (s : storage)
    (ops1 ops2 : List Operation) (s1 s2 : storage)
    (ht : transfer sender tps s = .ok (ops1, s1))
    (hu : update_operators sender ups s = .ok (ops2, s2)) :
    (s1.operators = s.operators ∧ s1.token_metadata = s.token_metadata
      ∧ s1.next_token_id = s.next_token_id)
    ∧ (s2.ledger = s.ledger ∧ s2.token_metadata = s.token_metadata
      ∧ s2.next_token_id = s.next_token_id)
    ∧ (run_main sender (parameter.Balance_of bp) s).1 = s := by
  refine ⟨?_, ?_, rfl⟩
  · obtain ⟨-, hfold⟩ := transfer_ok_elim sender tps s ops1 s1 ht
    refine foldlM_inv (fun acc p => apply_txs sender acc p)
      (fun st => st.operators = s.operators ∧ st.token_metadata = s.token_metadata
        ∧ st.next_token_id = s.next_token_id)
      ?_ tps s s1 ⟨rfl, rfl, rfl⟩ hfold
    intro b p b2 hP hok
    unfold apply_txs at hok
    refine foldlM_inv (fun acc tx => do_transfer sender acc p.from_ tx)
      (fun st => st.operators = s.operators ∧ st.token_metadata = s.token_metadata
        ∧ st.next_token_id = s.next_token_id)
      ?_ p.txs b b2 hP hok
    intro c tx c2 hPc hc
    obtain ⟨-, -, hceq⟩ := do_transfer_ok_elim sender c p.from_ tx c2 hc
    subst hceq
    exact hPc
  · obtain ⟨-, newops, hfold, hs2⟩ := update_operators_ok_elim sender ups s ops2 s2 hu
    subst hs2
    exact ⟨rfl, rfl, rfl⟩

theorem entrypoint_frame_conditions_witness :
    ((({ ledger := [((6, 0), 1)], operators := [], token_metadata := [],
         next_token_id := 1 } : storage).operators
        = ({ ledger := [((5, 0), 1)], operators := [], token_metadata := [],
             next_token_id := 1 } : storage).operators
      ∧ ({ ledger := [((6, 0), 1)], operators := [], token_metadata := [],
           next_token_id := 1 } : storage).token_metadata
        = ({ ledger := [((5, 0), 1)], operators := [], token_metadata := [],
             next_token_id := 1 } : storage).token_metadata
      ∧ ({ ledger := [((6, 0), 1)], operators := [], token_metadata := [],
           next_token_id := 1 } : storage).next_token_id
        = ({ ledger := [((5, 0), 1)], operators := [], token_metadata := [],
             next_token_id := 1 } : storage).next_token_id)
    ∧ (({ ledger := [((5, 0), 1)], operators := [((5, (7, 0)), ())],
          token_metadata := [], next_token_id := 1 } : storage).ledger
        = ({ ledger := [((5, 0), 1)], operators := [], token_metadata := [],
             next_token_id := 1 } : storage).ledger
      ∧ ({ ledger := [((5, 0), 1)], operators := [((5, (7, 0)), ())],
           token_metadata := [], next_token_id := 1 } : storage).token_metadata
        = ({ ledger := [((5, 0), 1)], operators := [], token_metadata := [],
             next_token_id := 1 } : storage).token_metadata
      ∧ ({ ledger := [((5, 0), 1)], operators := [((5, (7, 0)), ())],
           token_metadata := [], next_token_id := 1 } : storage).next_token_id
        = ({ ledger := [((5, 0), 1)], operators := [], token_metadata := [],
             next_token_id := 1 } : storage).next_token_id)
    ∧ (run_main 5
        (parameter.Balance_of { requests := [{ owner := 5, token_id := 0 }], callback := 9 })
        { ledger := [((5, 0), 1)], operators := [], token_metadata := [],
          next_token_id := 1 }).1
      = { ledger := [((5, 0), 1)], operators := [], token_metadata := [],
          next_token_id := 1 }) :=
  entrypoint_frame_conditions 5
    [{ from_ := 5, txs := [{ to_ := 6, token_id := 0, amount := 1 }] }]
    [.Add_operator { owner := 5, operator := 7, token_id := 0 }]
    { requests := [{ owner := 5, token_id := 0 }], callback := 9 }
    { ledger := [((5, 0), 1)], operators := [], token_metadata := [], next_token_id := 1 }
    [] []
    { ledger := [((6, 0), 1)], operators := [], token_metadata := [], next_token_id := 1 }
    { ledger := [((5, 0), 1)], operators := [((5, (7, 0)), ())], token_metadata := [],
      next_token_id := 1 }
    (by rfl) (by rfl)

/-- C4 fails on the code: starting from a storage whose ledger entries all
have strictly positive quantity, a Transfer triple of amount 0 to a
destination holding no entry of that token succeeds and stores a ledger
entry of quantity 0 — the spec's legal no-op actually mutates the ledger
and breaks the strict-positivity invariant. -/
theorem transfer_zero_amount_stores_zero_entry :
    (∀ e ∈ ([((0, 0), 1)] : ledger), 0 < e.2)
    ∧ run_main 0
        (parameter.Transfer
          [{ from_ := 0, txs := [{ to_ := 1, token_id := 5, amount := 0 }] }])
        { ledger := [((0, 0), 1)], operators := [], token_metadata := [],
          next_token_id := 1 }
      = ({ ledger := [((1, 5), 0), ((0, 0), 1)], operators := [], token_metadata := [],
           next_token_id := 1 },
         [], none)
    ∧ Map.find_opt ((1 : Addr), (5 : token_id)) ([((1, 5), 0), ((0, 0), 1)] : ledger)
        = some 0
    ∧ ¬ (∀ e ∈ ([((1, 5), 0), ((0, 0), 1)] : ledger), 0 < e.2) := by
  refine ⟨by decide, by rfl, by rfl, by decide⟩
